import Mathlib

/-!
Verification of the statement-level stepping controller and its satellite
utilities (afl-humaneval repository).

The repository's own code under verification:
  - the statement stepper and boundary classifier
    (src/afl-interpreter.ts: InterpreterWrapper.stepStatement, isNewStatement),
  - interpreter construction (createInterpreter, createInterpreterWithInit,
    the constructor's global-scope initialization),
  - the native require wrapper (src/require_wrapper.js),
  - the rate-limited dispatcher (src/afl-human-eval.ts: RateLimitedCaller),
  - the run-to-completion driver (the setTimeout-based runToCompletion loop).

The underlying elementary evaluator (the vendored js-interpreter library) is an
external collaborator; it is modelled from the spec at its interface boundary
(section 6 of the spec) as an observation trace: the sequence of
(top frame node, last-computed value) snapshots produced by successive
elementary steps, with status DONE exactly when no further step remains.
-/

set_option autoImplicit false

/-! ### The value model

JavaScript runtime values, restricted to the shapes the repository's code
manipulates: primitives, dates, regexps, arrays and plain objects.  Numbers
are modelled as integers (all values appearing in the repository's programs
and tests are integer-valued).  Object identity of composite values is not
represented inside `JSVal`; strict equality on composites is therefore
modelled as false (two separately materialised composites are never `===`,
and the same-reference case is subsumed by the structural comparison that
follows it in `deepEqual`). -/

inductive JSVal where
  | undefined : JSVal
  | null : JSVal
  | bool : Bool → JSVal
  | num : Int → JSVal
  | str : String → JSVal
  | date : Int → JSVal
  | regexp : String → String → JSVal
  | arr : List JSVal → JSVal
  | obj : List (String × JSVal) → JSVal

/-- JavaScript strict equality on the value model: primitives compare by
value; composite values (dates, regexps, arrays, objects) compare by
reference, which the identity-free value model renders as `false`. -/
def jsStrictEq : JSVal → JSVal → Bool
  | .undefined, .undefined => true
  | .null, .null => true
  | .bool a, .bool b => a == b
  | .num a, .num b => a == b
  | .str a, .str b => a == b
  | _, _ => false

/-- The JavaScript `typeof` operator on the value model. -/
def jsTypeOf : JSVal → String
  | .undefined => "undefined"
  | .null => "object"
  | .bool _ => "boolean"
  | .num _ => "number"
  | .str _ => "string"
  | .date _ => "object"
  | .regexp _ _ => "object"
  | .arr _ => "object"
  | .obj _ => "object"

def isNullV : JSVal → Bool
  | .null => true
  | _ => false

/- Structural size of a value, an upper bound on its nesting depth; used
to instantiate the fuel of the fuel-indexed recursions below. -/
mutual
def jsSize : JSVal → Nat
  | .arr xs => jsSizeList xs + 1
  | .obj fs => jsSizeFields fs + 1
  | _ => 1
def jsSizeList : List JSVal → Nat
  | [] => 0
  | x :: xs => jsSize x + jsSizeList xs + 1
def jsSizeFields : List (String × JSVal) → Nat
  | [] => 0
  | (_, v) :: fs => jsSize v + jsSizeFields fs + 1
end

/-- String conversion used by the template-literal error messages of
`deepEqual` (fuel-indexed so that the recursion through list elements is
structural; the fuel is instantiated with `jsSize`, which bounds the
nesting depth). Dates and plain objects are rendered with fixed tags. -/
def jsDisplayF : Nat → JSVal → String
  | 0, _ => ""
  | _ + 1, .undefined => "undefined"
  | _ + 1, .null => "null"
  | _ + 1, .bool b => if b then "true" else "false"
  | _ + 1, .num n => toString n
  | _ + 1, .str s => s
  | _ + 1, .date t => "date " ++ toString t
  | _ + 1, .regexp s f => "/" ++ s ++ "/" ++ f
  | fuel + 1, .arr xs => String.intercalate "," (xs.map (jsDisplayF fuel))
  | _ + 1, .obj _ => "[object Object]"

def jsDisplay (v : JSVal) : String := jsDisplayF (jsSize v) v

/-! ### deepEqual, embedded from src/require_wrapper.js

The recursion is fuel-indexed (fuel instantiated with `jsSize actual`, an
upper bound on the recursion depth, which always decreases into a structural
component of `actual`); the zero-fuel branch is unreachable at that
instantiation.  The per-level iteration over array elements and object keys
is factored into the structural loops `elemsLoop` and `fieldsLoop`, mirroring
the source's `for` loops (early `return false` on a false recursive result,
thrown errors propagate).  Mixed comparisons of distinct host-object shapes
(for instance a Date against a plain object), which JavaScript would funnel
through the generic key-based object branch, fall to the final error branch
here: the generic-object key view of host objects is outside the value
model.  Same-shape comparisons follow the source exactly. -/

def elemsLoop (f : JSVal → JSVal → String → Except String Bool) :
    List JSVal → List JSVal → String → Except String Bool
  | [], _, _ => .ok true
  | _, [], _ => .ok true
  | x :: xs, y :: ys, message => do
    let b ← f x y message
    if b then elemsLoop f xs ys message else .ok false

def lookupField (key : String) : List (String × JSVal) → JSVal
  | [] => .undefined
  | (k, v) :: rest => if k == key then v else lookupField key rest

def fieldsLoop (f : JSVal → JSVal → String → Except String Bool)
    (gs : List (String × JSVal)) :
    List (String × JSVal) → String → Except String Bool
  | [], _ => .ok true
  | (k, v) :: fs, message =>
    if !((gs.map Prod.fst).contains k) then
      .error (message ++ " Key \"" ++ k ++ "\" is missing in expected object")
    else do
      let b ← f v (lookupField k gs) message
      if b then fieldsLoop f gs fs message else .ok false

def deepEqualF : Nat → JSVal → JSVal → String → Except String Bool
  | 0, _, _, _ => .ok false
  | fuel + 1, actual, expected, message =>
    -- 1. Basic equality check (===)
    if jsStrictEq actual expected then .ok true
    -- 2. Type and null/undefined checks
    else if jsTypeOf actual != jsTypeOf expected || isNullV actual || isNullV expected then
      .error (message ++ " Expected " ++ jsDisplay expected ++ " but got " ++ jsDisplay actual)
    else
      match actual, expected with
      -- 3. Dates
      | .date t1, .date t2 => .ok (t1 == t2)
      -- 4. Regular expressions
      | .regexp s1 f1, .regexp s2 f2 => .ok (s1 == s2 && f1 == f2)
      -- 5. Array check
      | .arr xs, .arr ys =>
        if xs.length != ys.length then
          .error (message ++ " Arrays have different lengths: "
            ++ toString xs.length ++ " vs " ++ toString ys.length)
        else elemsLoop (deepEqualF fuel) xs ys message
      -- 6. Object check
      | .obj fs, .obj gs =>
        if fs.length != gs.length then
          .error (message ++ " Objects have different number of keys")
        else fieldsLoop (deepEqualF fuel) fs gs message
      -- 7. Not any of the above: not equal
      | a, e => .error (message ++ " Expected " ++ jsDisplay e ++ " but got " ++ jsDisplay a)

def deepEqual (actual expected : JSVal) (message : String) : Except String Bool :=
  deepEqualF (jsSize actual) actual expected message

/-- The object returned by a call of the `require` wrapper: it exposes a
`deepEqual` member (src/require_wrapper.js returns the literal whose single
property is the locally defined deepEqual function). -/
structure RequireResult where
  deepEqual : JSVal → JSVal → String → Except String Bool

/-- `require(moduleName)` from src/require_wrapper.js: the module name is
ignored and an object exposing `deepEqual` is returned. -/
def requireModule (_moduleName : String) : RequireResult :=
  ⟨deepEqual⟩

/-! ### Interpreter construction (src/afl-interpreter.ts)

The wrapper's constructor builds its own initialization hook, which
registers exactly one native binding, named "require", into the evaluated
program's global object, and passes that hook (and only it) to the
underlying evaluator.  A caller-supplied hook is modelled as the
transformation of the global binding list that it would perform. -/

structure InterpWrapper where
  code : String
  globalBindings : List String

/-- The `InterpreterWrapper` constructor (src/afl-interpreter.ts lines
158-170): the internally built initFunc registers the "require" binding,
unconditionally, before execution begins. -/
def mkInterpreterWrapper (code : String) : InterpWrapper :=
  ⟨code, ["require"]⟩

def createInterpreter (code : String) : InterpWrapper :=
  mkInterpreterWrapper code

/-- `createInterpreterWithInit` (src/afl-interpreter.ts lines 293-298): the
`initFunc` parameter is accepted but the body constructs
`new InterpreterWrapper(code)` only — the caller's hook is never applied. -/
def createInterpreterWithInit (code : String)
    (initFunc : List String → List String) : InterpWrapper :=
  mkInterpreterWrapper code

/-! ### AST nodes and the statement-boundary classifier

A node carries its kind, its source span, and an `id` modelling JavaScript
object identity (the allocation address): the source compares frame nodes
with `!==`, which is reference inequality.  The source field `end` is a Lean
keyword and is rendered `end_`. -/

structure Node where
  id : Nat
  type : String
  start : Nat
  end_ : Nat

/-- The fixed enumerated set of statement-level node kinds
(src/afl-interpreter.ts lines 247-260). -/
def statementTypes : List String :=
  ["VariableDeclaration", "ExpressionStatement", "ReturnStatement",
   "IfStatement", "WhileStatement", "ForStatement", "FunctionDeclaration",
   "BlockStatement", "TryStatement", "ThrowStatement", "BreakStatement",
   "ContinueStatement"]

/-- `isNewStatement` (src/afl-interpreter.ts lines 245-264): the current
node is a new statement when its kind is in the statement set and it is a
different object (`prevNode !== currentNode`, reference inequality, modelled
through the identity tags). -/
def isNewStatement (prevNode currentNode : Node) : Bool :=
  statementTypes.contains currentNode.type && prevNode.id != currentNode.id

/-- Modelled from the spec: the boundary recognition the spec describes in
section 4.2 — the new node is compared with the tracked node by source start
offset, not identity, or its start position falls beyond the end of the
previously started statement.  Stated for comparison with the source's
`isNewStatement`. -/
def isNewStatementSpec (prevNode currentNode : Node) : Bool :=
  statementTypes.contains currentNode.type &&
    (currentNode.start != prevNode.start || prevNode.end_ < currentNode.start)

/-! ### The elementary evaluator, modelled from the spec

Modelled from the spec: the vendored elementary evaluator is external (it is
specified only at its interface boundary, section 6).  A synchronous
execution (no asynchronous host calls) is modelled as the finite trace of
observations the stepper reads: after `pos` elementary steps the evaluator
exposes the top frame's node (`none` once the frame stack has emptied) and
its last-computed value.  `step()` advances the position and returns true
exactly while more snapshots remain; the status is `DONE` exactly when
`step()` would return false, and `STEP` otherwise. -/

structure EvalSnapshot where
  topNode : Option Node
  value : JSVal

abbrev EvalTrace := List EvalSnapshot

def snapAt (ev : EvalTrace) (pos : Nat) : EvalSnapshot :=
  ev.getD pos ⟨none, .undefined⟩

/-- `getCurrentStatement` (src/afl-interpreter.ts lines 195-197): the node of
the top entry of the evaluator's state stack, if any. -/
def getCurrentStatement (ev : EvalTrace) (pos : Nat) : Option Node :=
  (snapAt ev pos).topNode

/-- `getValue` (src/afl-interpreter.ts lines 172-174): the evaluator's
last-computed value. -/
def getValueAt (ev : EvalTrace) (pos : Nat) : JSVal :=
  (snapAt ev pos).value

/-- Status constants (src/afl-interpreter.ts lines 135-140). -/
def Status.DONE : Nat := 0

def Status.STEP : Nat := 1

def Status.TASK : Nat := 2

def Status.ASYNC : Nat := 3

/-- Modelled from the spec: for a synchronous trace the status is `DONE`
exactly when no elementary step remains, `STEP` otherwise. -/
def getStatusAt (ev : EvalTrace) (pos : Nat) : Nat :=
  if pos + 1 < ev.length then Status.STEP else Status.DONE

/-- The statement descriptor (src/afl-interpreter.ts interface `Statement`);
the source field `end` is rendered `end_`. -/
structure Statement where
  type : String
  start : Nat
  end_ : Nat
  value : JSVal

/-- Outcome of one `stepStatement()` call: the returned descriptor (or null),
the evaluator position afterwards, and how many times the elementary step
primitive was invoked during the call. -/
structure StepResult where
  stmt : Option Statement
  pos : Nat
  stepCalls : Nat

/-- The loop-exit test of `stepStatement` (src/afl-interpreter.ts line 218):
`!currentNode || this.isNewStatement(startNode, currentNode)` — the frame
stack has emptied, or the new top node is a new statement. -/
def boundaryHit (startNode : Node) : Option Node → Bool
  | none => true
  | some currentNode => isNewStatement startNode currentNode

/-- The `while (this.step()) ...` loop of `stepStatement`
(src/afl-interpreter.ts lines 214-226) together with the trailing
"handle the last statement" return (lines 229-236).  Each iteration invokes
`step()`; on success it inspects the new top frame: if the stack has emptied
or the top node is a new statement, the descriptor of the tracked
`startNode` is built with the value read at that moment; otherwise the loop
continues.  When `step()` returns false the tracked statement is returned
with the final value.  The recursion is fuel-indexed; `stepStatement`
supplies fuel `ev.length`, which the loop can never exhaust because every
iteration needs `pos + 1 < ev.length`, so the zero-fuel branch is dead
there. -/
def stepLoop (ev : EvalTrace) (startNode : Node) :
    Nat → Nat → Nat → StepResult
  | 0, pos, calls => ⟨none, pos, calls⟩
  | fuel + 1, pos, calls =>
    if pos + 1 < ev.length then
      if boundaryHit startNode (getCurrentStatement ev (pos + 1)) then
        ⟨some ⟨startNode.type, startNode.start, startNode.end_,
          getValueAt ev (pos + 1)⟩, pos + 1, calls + 1⟩
      else
        stepLoop ev startNode fuel (pos + 1) (calls + 1)
    else
      ⟨some ⟨startNode.type, startNode.start, startNode.end_,
        getValueAt ev pos⟩, pos, calls + 1⟩

/-- `stepStatement` (src/afl-interpreter.ts lines 203-239): null immediately
when the status is `DONE` or no current node exists; otherwise the tracked
start node is stepped to its boundary.  (The source's final `return null`
after the `if (startNode)` guard is unreachable, since `startNode` is
non-null on that path.) -/
def stepStatement (ev : EvalTrace) (pos : Nat) : StepResult :=
  if getStatusAt ev pos = Status.DONE then ⟨none, pos, 0⟩
  else
    match getCurrentStatement ev pos with
    | none => ⟨none, pos, 0⟩
    | some startNode => stepLoop ev startNode ev.length pos 0

/-- Repeated invocation of `stepStatement()` until it returns null: the list
of returned descriptors and the position at which null was observed. -/
def collectStatements (ev : EvalTrace) : Nat → Nat → List Statement × Nat
  | 0, pos => ([], pos)
  | fuel + 1, pos =>
    match stepStatement ev pos with
    | ⟨none, _, _⟩ => ([], pos)
    | ⟨some s, q, _⟩ =>
      let rest := collectStatements ev fuel q
      (s :: rest.1, rest.2)

/-- Modelled from the spec: `run()` executes the program to completion (for
a synchronous program it returns false and leaves the evaluator at the final
trace state); the run result's value is the evaluator's final value. -/
def runFinalValue (ev : EvalTrace) : JSVal :=
  getValueAt ev (ev.length - 1)

/-! ### A concrete synchronous execution, modelled from the spec

Modelled from the spec: the scenario of section 8 runs the source
"var x = 1; x = x + 1; if (x === 2) ... x;" (an if-statement whose block
multiplies x by two, then a final expression statement).  The trace below is
a spec-faithful observation sequence of the external evaluator on that
source: frames are pushed on entering a statement or sub-expression and
popped on completion, the last-computed value updates as statements
complete, and the frame stack empties when the program finishes.  Source
offsets follow the scenario source text; the identity tags are distinct per
allocated node. -/

def node1 : Node := ⟨1, "VariableDeclaration", 0, 10⟩

def node2 : Node := ⟨2, "ExpressionStatement", 11, 21⟩

def node3 : Node := ⟨3, "IfStatement", 22, 49⟩

def node4 : Node := ⟨4, "BlockStatement", 35, 49⟩

def node5 : Node := ⟨5, "ExpressionStatement", 50, 52⟩

def lit1 : Node := ⟨6, "Literal", 8, 9⟩

def assign1 : Node := ⟨7, "AssignmentExpression", 11, 20⟩

def binExpr1 : Node := ⟨8, "BinaryExpression", 26, 32⟩

def assign2 : Node := ⟨9, "AssignmentExpression", 37, 46⟩

def ident1 : Node := ⟨10, "Identifier", 50, 51⟩

def scenarioTrace : EvalTrace :=
  [⟨some node1, .undefined⟩,
   ⟨some lit1, .undefined⟩,
   ⟨some node1, .undefined⟩,
   ⟨some node2, .undefined⟩,
   ⟨some assign1, .undefined⟩,
   ⟨some node2, .num 2⟩,
   ⟨some node3, .num 2⟩,
   ⟨some binExpr1, .num 2⟩,
   ⟨some node3, .bool true⟩,
   ⟨some node4, .bool true⟩,
   ⟨some assign2, .bool true⟩,
   ⟨some node4, .num 4⟩,
   ⟨some node5, .num 4⟩,
   ⟨some ident1, .num 4⟩,
   ⟨none, .num 4⟩]

/-- The scenario program's top-level statements: the variable declaration,
the assignment expression statement, the if-statement and the final
expression statement (the block is nested inside the if, not top-level). -/
def scenarioTopLevel : List Node := [node1, node2, node3, node5]

/-! ### Flat traces

A trace is flat for a statement list when the nodes appearing as top frames
are exactly those statements in order, separated only by frames that do not
classify as new statements relative to the tracked one, and the trace ends
with an emptied frame stack.  This captures a synchronous program whose
executed statement-boundary nodes are exactly its top-level statements (no
compound statement bodies appear as reportable frames). -/

inductive FlatSteps (ev : EvalTrace) : Nat → List Node → Prop where
  | done : ∀ pos, pos + 1 = ev.length → getCurrentStatement ev pos = none →
      FlatSteps ev pos []
  | step : ∀ pos q n rest,
      getCurrentStatement ev pos = some n →
      pos < q →
      (∀ r, pos < r → r < q →
        ∃ m, getCurrentStatement ev r = some m ∧ isNewStatement n m = false) →
      (∀ m, getCurrentStatement ev q = some m → isNewStatement n m = true) →
      FlatSteps ev q rest →
      FlatSteps ev pos (n :: rest)

/-! ### The rate-limited dispatcher (src/afl-human-eval.ts lines 415-436)

`waitForRateLimit` is modelled as a pure state transformer: given the
limiter state and the current time it yields the admission time of the call
and the successor state.  Time is modelled in whole window units (the
source keeps millisecond timestamps and divides by 1000 to compare against
a window expressed in seconds; for integer-second windows the scaling is
exact).  The source's reset branch returns early — before the
`this.callCount++` line — so the resetting call is admitted without being
counted; the delay branch waits for the window remainder and neither resets
the counter nor the window start. -/

structure RateLimiterState where
  callCount : Nat
  lastResetTime : Nat
  deriving DecidableEq

def waitForRateLimit (rateLimit timeWindow : Nat) (st : RateLimiterState)
    (now : Nat) : Nat × RateLimiterState :=
  let timeElapsed := now - st.lastResetTime
  if timeElapsed ≥ timeWindow then
    -- Reset the counter if the time window has passed; early return,
    -- skipping the increment of callCount.
    (now, ⟨0, now⟩)
  else if st.callCount ≥ rateLimit then
    -- Rate limit exceeded: wait out the remaining window time, then count.
    let remainingTime := timeWindow - timeElapsed
    (now + remainingTime, ⟨st.callCount + 1, st.lastResetTime⟩)
  else
    (now, ⟨st.callCount + 1, st.lastResetTime⟩)

/-- Sequential dispatch of `n` back-to-back zero-duration calls: each call
enters `waitForRateLimit` at the time the previous admission completed.
Returns the admission times and the final limiter state. -/
def admitTimes (rateLimit timeWindow : Nat) :
    RateLimiterState → Nat → Nat → List Nat × RateLimiterState
  | st, _, 0 => ([], st)
  | st, now, n + 1 =>
    let adm := waitForRateLimit rateLimit timeWindow st now
    let rest := admitTimes rateLimit timeWindow adm.2 adm.1 n
    (adm.1 :: rest.1, rest.2)

/-! ### The run-to-completion driver (src/unnamed part_000 lines 46-53)

Each invocation calls the evaluator's `run()` once; on true it schedules
exactly one retry of itself 10 time units later via setTimeout and returns,
on false it schedules nothing.  The successive `run()` results are modelled
from the spec as an abstract list of booleans (true = still asynchronously
blocked); the function returns the times at which the driver body (and
hence `run()`) is invoked. -/

def runToCompletion (results : List Bool) (t0 : Nat) : List Nat :=
  match results with
  | [] => []
  | r :: rs => t0 :: (if r then runToCompletion rs (t0 + 10) else [])

/-! ### Helper lemmas about the stepping loop -/

/-- Any descriptor the loop returns carries the value read at the position
the loop stopped at. -/
lemma stepLoop_value_aux (ev : EvalTrace) (n : Node) :
    ∀ fuel pos calls s, (stepLoop ev n fuel pos calls).stmt = some s →
      s.value = getValueAt ev (stepLoop ev n fuel pos calls).pos := by
  intro fuel
  induction fuel with
  | zero => intro pos calls s h; exact absurd h (by simp [stepLoop])
  | succ fuel ih =>
    intro pos calls s h
    by_cases h1 : pos + 1 < ev.length
    · by_cases h2 : boundaryHit n (getCurrentStatement ev (pos + 1)) = true
      · rw [stepLoop, if_pos h1, if_pos h2] at h ⊢
        simp only [Option.some.injEq] at h
        rw [← h]
      · rw [stepLoop, if_pos h1, if_neg h2] at h ⊢
        exact ih (pos + 1) (calls + 1) s h
    · rw [stepLoop, if_neg h1] at h ⊢
      simp only [Option.some.injEq] at h
      rw [← h]

/-- When every intermediate frame between `pos` and the boundary `q` fails
the new-statement test and the frame at `q` triggers it (or the stack is
empty there), the loop stops exactly at `q`, returning the tracked node's
descriptor with the value read at `q`, after `q - pos` step invocations. -/
lemma stepLoop_boundary (ev : EvalTrace) (n : Node) :
    ∀ fuel pos calls q, pos < q → q < ev.length → q - pos ≤ fuel →
    (∀ r, pos < r → r < q →
      ∃ m, getCurrentStatement ev r = some m ∧ isNewStatement n m = false) →
    (∀ m, getCurrentStatement ev q = some m → isNewStatement n m = true) →
    stepLoop ev n fuel pos calls =
      ⟨some ⟨n.type, n.start, n.end_, getValueAt ev q⟩, q, calls + (q - pos)⟩ := by
  intro fuel
  induction fuel with
  | zero => intro pos calls q h1 _ h3 _ _; omega
  | succ fuel ih =>
    intro pos calls q h1 h2 h3 hmid hq
    have hlt : pos + 1 < ev.length := by omega
    by_cases hq1 : pos + 1 = q
    · have hb : boundaryHit n (getCurrentStatement ev (pos + 1)) = true := by
        rw [hq1]
        cases hc : getCurrentStatement ev q with
        | none => rfl
        | some m => simpa [boundaryHit] using hq m hc
      rw [stepLoop, if_pos hlt, if_pos hb, hq1, show calls + (q - pos) = calls + 1 by omega]
    · obtain ⟨m, hm, hnew⟩ := hmid (pos + 1) (by omega) (by omega)
      have hb : ¬(boundaryHit n (getCurrentStatement ev (pos + 1)) = true) := by
        simp [hm, boundaryHit, hnew]
      rw [stepLoop, if_pos hlt, if_neg hb]
      rw [ih (pos + 1) (calls + 1) q (by omega) h2 (by omega)
        (fun r hr1 hr2 => hmid r (by omega) hr2) hq]
      rw [show calls + 1 + (q - (pos + 1)) = calls + (q - pos) by omega]

/-- A flat trace never starts at or beyond the end of the trace. -/
lemma flat_lt {ev : EvalTrace} {q : Nat} {rest : List Node}
    (h : FlatSteps ev q rest) : q < ev.length := by
  induction h with
  | done pos h1 _ => omega
  | step pos q n rest _ hlt _ _ _ ih => omega

/-- An empty flat continuation sits at the final snapshot, with the frame
stack emptied. -/
lemma flat_nil {ev : EvalTrace} {q : Nat} (h : FlatSteps ev q []) :
    q + 1 = ev.length ∧ getCurrentStatement ev q = none := by
  cases h with
  | done _ h1 h2 => exact ⟨h1, h2⟩

/-- One `stepStatement` call on a flat trace emits the tracked statement's
descriptor with the value observed at its boundary position. -/
lemma stepStatement_flat_step {ev : EvalTrace} {pos q : Nat} {n : Node}
    {rest : List Node}
    (htop : getCurrentStatement ev pos = some n) (hlt : pos < q)
    (hmid : ∀ r, pos < r → r < q →
      ∃ m, getCurrentStatement ev r = some m ∧ isNewStatement n m = false)
    (hb : ∀ m, getCurrentStatement ev q = some m → isNewStatement n m = true)
    (hnext : FlatSteps ev q rest) :
    stepStatement ev pos =
      ⟨some ⟨n.type, n.start, n.end_, getValueAt ev q⟩, q, q - pos⟩ := by
  have hq : q < ev.length := flat_lt hnext
  have hpos1 : pos + 1 < ev.length := by omega
  have hne : ¬(getStatusAt ev pos = Status.DONE) := by
    simp [getStatusAt, hpos1, Status.STEP, Status.DONE]
  have hloop := stepLoop_boundary ev n ev.length pos 0 q hlt hq (by omega) hmid hb
  rw [Nat.zero_add] at hloop
  calc stepStatement ev pos = stepLoop ev n ev.length pos 0 := by
        rw [stepStatement, if_neg hne, htop]
    _ = _ := hloop

/-- Iterating `stepStatement` over a flat trace enumerates exactly the
statement list, ends at the final snapshot with the frame stack emptied,
and the last descriptor carries the trace's final value. -/
lemma collect_flat (ev : EvalTrace) :
    ∀ (stmts : List Node) (pos : Nat), FlatSteps ev pos stmts →
    ∀ fuel, stmts.length < fuel →
    (collectStatements ev fuel pos).1.map Statement.type = stmts.map Node.type ∧
    (collectStatements ev fuel pos).2 + 1 = ev.length ∧
    (stmts ≠ [] →
      ((collectStatements ev fuel pos).1.getLast?).map Statement.value
        = some (getValueAt ev (ev.length - 1))) := by
  intro stmts pos h
  induction h with
  | done pos h1 h2 =>
    intro fuel hfuel
    match fuel, hfuel with
    | fuel + 1, hfuel =>
      have hdone : stepStatement ev pos = ⟨none, pos, 0⟩ := by
        rw [stepStatement, if_pos]
        simp [getStatusAt, show ¬(pos + 1 < ev.length) by omega]
      have hcoll : collectStatements ev (fuel + 1) pos = ([], pos) := by
        rw [collectStatements, hdone]
      simp [hcoll, h1]
  | step pos q n rest htop hlt hmid hb hnext ih =>
    intro fuel hfuel
    match fuel, hfuel with
    | fuel + 1, hfuel =>
      have hstep := stepStatement_flat_step htop hlt hmid hb hnext
      have hfuel2 : rest.length < fuel := by
        simp only [List.length_cons] at hfuel; omega
      obtain ⟨ih1, ih2, ih3⟩ := ih fuel hfuel2
      have hcoll : collectStatements ev (fuel + 1) pos =
          ((⟨n.type, n.start, n.end_, getValueAt ev q⟩ : Statement) ::
            (collectStatements ev fuel q).1,
           (collectStatements ev fuel q).2) := by
        rw [collectStatements, hstep]
      rw [hcoll]
      refine ⟨by simpa using ih1, ih2, ?_⟩
      intro _
      cases hr : rest with
      | nil =>
        subst hr
        obtain ⟨hq1, _⟩ := flat_nil hnext
        have hempty : (collectStatements ev fuel q).1 = [] :=
          List.map_eq_nil_iff.mp (by rw [ih1]; rfl)
        simp only [hempty, List.getLast?_singleton, Option.map_some']
        rw [show ev.length - 1 = q by omega]
      | cons n2 rest2 =>
        have hne2 : (collectStatements ev fuel q).1 ≠ [] := by
          intro hcon
          rw [hcon, hr] at ih1
          exact absurd ih1.symm (by simp)
        have hlast :
            ((⟨n.type, n.start, n.end_, getValueAt ev q⟩ : Statement) ::
              (collectStatements ev fuel q).1).getLast?
            = ((collectStatements ev fuel q).1).getLast? := by
          cases hcc : (collectStatements ev fuel q).1 with
          | nil => exact absurd hcc hne2
          | cons s ss => simp [List.getLast?_cons_cons]
        rw [hlast]
        exact ih3 (by rw [hr]; simp)

/-! ### Further concrete inputs used by the theorems below -/

/- A two-statement flat program: a variable declaration followed by an
expression statement, ending with the frame stack emptied and final value
one. -/

def wnode1 : Node := ⟨21, "VariableDeclaration", 0, 10⟩

def wnode2 : Node := ⟨22, "ExpressionStatement", 11, 13⟩

def wTrace : EvalTrace :=
  [⟨some wnode1, .undefined⟩, ⟨some wnode2, .undefined⟩, ⟨none, .num 1⟩]

/- Two distinct statement-classified nodes sharing the same source start
offset, within each other's spans. -/

def cexPrev : Node := ⟨11, "ExpressionStatement", 0, 5⟩

def cexCur : Node := ⟨12, "BlockStatement", 0, 5⟩

/- A node whose kind is outside the enumerated statement set. -/

def progNode : Node := ⟨0, "Program", 0, 52⟩

/-! ### The claims -/

/-- Claim C1, counterexample: the scenario program has four top-level
statements, yet repeated `stepStatement()` returns five non-null
descriptors — the executed block of the if-statement is reported as its own
descriptor — so the descriptor count is not the top-level statement count. -/
theorem stepStatement_count_exceeds_toplevel :
    (collectStatements scenarioTrace 6 0).1.length = 5 ∧
    scenarioTopLevel.length = 4 ∧
    (collectStatements scenarioTrace 6 0).1.length ≠ scenarioTopLevel.length := by
  refine ⟨rfl, rfl, ?_⟩
  decide

/-- Claim C1, amended: for every synchronous program whose executed
statement-boundary frames are exactly its k statements in order (no nested
statement-classified node appears as a reportable frame — in particular no
compound statement bodies), repeatedly calling `stepStatement()` on a fresh
interpreter returns exactly k non-null descriptors, of those statements'
kinds and in their order, followed by null, and the last descriptor's value
equals the final value obtained by running the program to completion with
`run()`.  Programs with compound statements yield additional descriptors
for the nested boundary nodes. -/
theorem stepStatement_flat_enumeration (ev : EvalTrace) (stmts : List Node)
    (h : FlatSteps ev 0 stmts) :
    (collectStatements ev (stmts.length + 1) 0).1.map Statement.type
      = stmts.map Node.type ∧
    (collectStatements ev (stmts.length + 1) 0).1.length = stmts.length ∧
    (stepStatement ev (collectStatements ev (stmts.length + 1) 0).2).stmt
      = none ∧
    (stmts ≠ [] →
      ((collectStatements ev (stmts.length + 1) 0).1.getLast?).map
        Statement.value = some (runFinalValue ev)) := by
  obtain ⟨h1, h2, h3⟩ := collect_flat ev stmts 0 h (stmts.length + 1) (by omega)
  refine ⟨h1, ?_, ?_, ?_⟩
  · have := congrArg List.length h1
    simpa using this
  · rw [stepStatement, if_pos]
    simp [getStatusAt,
      show ¬((collectStatements ev (stmts.length + 1) 0).2 + 1 < ev.length)
        by omega]
  · intro hne
    simpa [runFinalValue] using h3 hne

/-- Claim C1, witness: on the two-statement flat trace the amended theorem
yields both descriptors, the trailing null, and the final value. -/
theorem stepStatement_flat_enumeration_witness :
    (collectStatements wTrace 3 0).1.map Statement.type
      = [wnode1, wnode2].map Node.type ∧
    (collectStatements wTrace 3 0).1.length = 2 ∧
    (stepStatement wTrace (collectStatements wTrace 3 0).2).stmt = none ∧
    ([wnode1, wnode2] ≠ ([] : List Node) →
      ((collectStatements wTrace 3 0).1.getLast?).map Statement.value
        = some (runFinalValue wTrace)) :=
  stepStatement_flat_enumeration wTrace [wnode1, wnode2] (by
    refine FlatSteps.step 0 1 wnode1 [wnode2] rfl (by omega)
      (fun r hr1 hr2 => absurd hr1 (by omega)) ?_ ?_
    · intro m hm
      have hm2 : some wnode2 = some m := hm
      injection hm2 with hm3
      rw [← hm3]
      rfl
    · refine FlatSteps.step 1 2 wnode2 [] rfl (by omega)
        (fun r hr1 hr2 => absurd hr1 (by omega)) ?_ (FlatSteps.done 2 rfl rfl)
      intro m hm
      exact absurd hm (by simp [getCurrentStatement, snapAt, wTrace]))

/-- Claim C2: on the scenario source, successive `stepStatement()` calls
yield exactly the descriptors VariableDeclaration (value undefined),
ExpressionStatement (2), IfStatement (true), BlockStatement (4),
ExpressionStatement (4), in that order, then null, and the final value is
four. -/
theorem stepStatement_scenario :
    (collectStatements scenarioTrace 6 0).1 =
      [⟨"VariableDeclaration", 0, 10, JSVal.undefined⟩,
       ⟨"ExpressionStatement", 11, 21, JSVal.num 2⟩,
       ⟨"IfStatement", 22, 49, JSVal.bool true⟩,
       ⟨"BlockStatement", 35, 49, JSVal.num 4⟩,
       ⟨"ExpressionStatement", 50, 52, JSVal.num 4⟩] ∧
    (stepStatement scenarioTrace (collectStatements scenarioTrace 6 0).2).stmt
      = none ∧
    runFinalValue scenarioTrace = JSVal.num 4 :=
  ⟨rfl, rfl, rfl⟩

/-- Claim C3, counterexample: two distinct statement-classified nodes with
the same source start offset (and within each other's spans) are recognized
as a new statement by the code — which compares object identity — while the
claimed offset-or-span comparison recognizes no new statement. -/
theorem isNewStatement_not_by_offset :
    isNewStatement cexPrev cexCur = true ∧
    isNewStatementSpec cexPrev cexCur = false :=
  ⟨rfl, rfl⟩

/-- Claim C3, amended: a top-frame node classified as a statement boundary
is recognized as a new statement exactly when it differs from the tracked
node by object identity (the source's reference comparison); no start-offset
or span comparison is involved.  When recognized, the loop finalizes the
tracked statement and returns it with the value read at that point. -/
theorem isNewStatement_identity (prev cur : Node) :
    (isNewStatement prev cur = true ↔
      cur.type ∈ statementTypes ∧ prev.id ≠ cur.id) ∧
    (∀ (ev : EvalTrace) (fuel pos calls : Nat),
      pos + 1 < ev.length →
      getCurrentStatement ev (pos + 1) = some cur →
      isNewStatement prev cur = true →
      stepLoop ev prev (fuel + 1) pos calls =
        ⟨some ⟨prev.type, prev.start, prev.end_, getValueAt ev (pos + 1)⟩,
          pos + 1, calls + 1⟩) := by
  constructor
  · simp [isNewStatement, List.elem_iff, List.contains]
  · intro ev fuel pos calls h1 h2 h3
    rw [stepLoop, if_pos h1, if_pos (by simp [h2, boundaryHit, h3])]

/-- Claim C3, witness: the identity characterization at the scenario's first
two statement nodes, and the loop finalizing the tracked variable
declaration at its boundary. -/
theorem isNewStatement_identity_witness :
    (isNewStatement node1 node2 = true ↔
      node2.type ∈ statementTypes ∧ node1.id ≠ node2.id) ∧
    stepLoop scenarioTrace node1 (12 + 1) 2 2 =
      ⟨some ⟨"VariableDeclaration", 0, 10, JSVal.undefined⟩, 3, 3⟩ :=
  ⟨(isNewStatement_identity node1 node2).1,
   (isNewStatement_identity node1 node2).2 scenarioTrace 12 2 2 (by decide)
     rfl rfl⟩

/-- Claim C4: whenever the evaluator status is DONE, `stepStatement()`
returns null immediately, at the same position and with zero invocations of
the elementary step primitive. -/
theorem stepStatement_done_immediate (ev : EvalTrace) (pos : Nat)
    (h : getStatusAt ev pos = Status.DONE) :
    stepStatement ev pos = ⟨none, pos, 0⟩ := by
  rw [stepStatement, if_pos h]

/-- Claim C4, witness: at the scenario trace's terminal position the status
is DONE and `stepStatement()` returns null without stepping. -/
theorem stepStatement_done_immediate_witness :
    stepStatement scenarioTrace 14 = ⟨none, 14, 0⟩ :=
  stepStatement_done_immediate scenarioTrace 14 rfl

/-- Claim C5: every non-null descriptor returned by `stepStatement()`
carries the evaluator's last-computed value read at the position where the
boundary (or program termination) was detected — the returned position —
not the value at classification time. -/
theorem stepStatement_value_at_completion (ev : EvalTrace) (pos : Nat)
    (s : Statement) (h : (stepStatement ev pos).stmt = some s) :
    s.value = getValueAt ev (stepStatement ev pos).pos := by
  by_cases hd : getStatusAt ev pos = Status.DONE
  · rw [stepStatement, if_pos hd] at h
    exact absurd h (by simp)
  · cases hc : getCurrentStatement ev pos with
    | none =>
      rw [stepStatement, if_neg hd, hc] at h
      exact absurd h (by simp)
    | some n =>
      have hrw : stepStatement ev pos = stepLoop ev n ev.length pos 0 := by
        rw [stepStatement, if_neg hd, hc]
      rw [hrw] at h ⊢
      exact stepLoop_value_aux ev n ev.length pos 0 s h
/-- Claim C5, witness: the descriptor of the scenario's second statement
carries value two, the value at its completion position, while the value at
its classification time was still undefined. -/
theorem stepStatement_value_at_completion_witness :
    (Statement.mk "ExpressionStatement" 11 21 (JSVal.num 2)).value
      = getValueAt scenarioTrace (stepStatement scenarioTrace 3).pos ∧
    getValueAt scenarioTrace 3 = JSVal.undefined :=
  ⟨stepStatement_value_at_completion scenarioTrace 3
      ⟨"ExpressionStatement", 11, 21, JSVal.num 2⟩ rfl,
   rfl⟩

/-- Claim C6: statement-boundary classification consults the fixed set of
twelve statement kinds; for every node whose kind is outside the set the
classification returns false, and the stepping loop silently continues with
the next elementary step, raising no error. -/
theorem isNewStatement_unrecognized :
    statementTypes.length = 12 ∧
    (∀ prev cur : Node, statementTypes.contains cur.type = false →
      isNewStatement prev cur = false) ∧
    (∀ (ev : EvalTrace) (n : Node) (fuel pos calls : Nat) (cur : Node),
      pos + 1 < ev.length →
      getCurrentStatement ev (pos + 1) = some cur →
      statementTypes.contains cur.type = false →
      stepLoop ev n (fuel + 1) pos calls =
        stepLoop ev n fuel (pos + 1) (calls + 1)) := by
  refine ⟨rfl, ?_, ?_⟩
  · intro prev cur h
    simp only [isNewStatement, h, Bool.false_and]
  · intro ev n fuel pos calls cur h1 h2 h3
    have hb : isNewStatement n cur = false := by
      simp only [isNewStatement, h3, Bool.false_and]
    rw [stepLoop, if_pos h1, if_neg (by simp [h2, boundaryHit, hb])]

/-- Claim C6, witness: a Program-kinded node is not a boundary, and at the
scenario's literal sub-expression frame the loop continues stepping. -/
theorem isNewStatement_unrecognized_witness :
    isNewStatement node1 progNode = false ∧
    stepLoop scenarioTrace node1 (14 + 1) 0 0 =
      stepLoop scenarioTrace node1 14 1 1 :=
  ⟨isNewStatement_unrecognized.2.1 node1 progNode rfl,
   isNewStatement_unrecognized.2.2 scenarioTrace node1 14 0 0 lit1
     (by decide) rfl rfl⟩

/-- Claim C7: with limit two and a ten-unit window, six back-to-back calls
from a fresh limiter are admitted at times 0, 0, 10, 10, 10, 10 — the third
call is delayed by one full window, but four admissions fall inside the
window measured from the reset at time ten (the claim allows at most two),
and after the fourth call, whose arrival reset the window, the counter
stands at zero: the resetting call was admitted without being counted. -/
theorem rateLimiter_overadmission :
    (admitTimes 2 10 ⟨0, 0⟩ 0 6).1 = [0, 0, 10, 10, 10, 10] ∧
    ((admitTimes 2 10 ⟨0, 0⟩ 0 6).1.countP
      (fun t => decide (10 ≤ t ∧ t < 20))) = 4 ∧
    (admitTimes 2 10 ⟨0, 0⟩ 0 4).2 = ⟨0, 10⟩ :=
  ⟨rfl, rfl, rfl⟩

/-- Claim C8: each driver invocation consumes one `run()` result; a true
result schedules exactly one retry ten time units later, a false result
schedules nothing; consequently the i-th invocation happens at the start
time plus ten times i, and the invocation count is one more than the run of
leading true results (capped by the modelled result list). -/
theorem runToCompletion_schedule :
    (∀ (rs : List Bool) (t0 : Nat), runToCompletion (false :: rs) t0 = [t0]) ∧
    (∀ (rs : List Bool) (t0 : Nat),
      runToCompletion (true :: rs) t0 = t0 :: runToCompletion rs (t0 + 10)) ∧
    (∀ (rs : List Bool) (t0 i : Nat), i < (runToCompletion rs t0).length →
      (runToCompletion rs t0).getD i 0 = t0 + 10 * i) ∧
    (∀ (rs : List Bool) (t0 : Nat),
      (runToCompletion rs t0).length
        = min ((rs.takeWhile id).length + 1) rs.length) := by
  have hT : ∀ (rs : List Bool) (t0 : Nat),
      runToCompletion (true :: rs) t0 = t0 :: runToCompletion rs (t0 + 10) :=
    fun _ _ => rfl
  have hF : ∀ (rs : List Bool) (t0 : Nat),
      runToCompletion (false :: rs) t0 = [t0] :=
    fun _ _ => rfl
  refine ⟨hF, hT, ?_, ?_⟩
  · intro rs
    induction rs with
    | nil => intro t0 i h; simp [runToCompletion] at h
    | cons r rs ih =>
      intro t0 i h
      cases r
      · rw [hF] at h ⊢
        have hi : i = 0 := by simpa using h
        simp [hi]
      · rw [hT] at h ⊢
        cases i with
        | zero => simp
        | succ i =>
          rw [List.getD_cons_succ, ih (t0 + 10) i (by simpa using h)]
          ring
  · intro rs
    induction rs with
    | nil => intro t0; simp [runToCompletion]
    | cons r rs ih =>
      intro t0
      cases r
      · rw [hF]
        simp [List.takeWhile_cons]
      · rw [hT]
        simp [List.takeWhile_cons, ih (t0 + 10)]
        omega

/-- Claim C8, witness: from a true result the driver schedules one retry
ten units later, and the second invocation time is the start plus ten. -/
theorem runToCompletion_schedule_witness :
    runToCompletion [true, false] 5 = 5 :: runToCompletion [false] 15 ∧
    (runToCompletion [true, false] 5).getD 1 0 = 5 + 10 * 1 :=
  ⟨runToCompletion_schedule.2.1 [false] 5,
   runToCompletion_schedule.2.2.1 [true, false] 5 1 (by decide)⟩

/-- Claim C9: `createInterpreterWithInit` discards its initialization hook —
constructing with a hook that would register an "alert" binding leaves the
global scope with only the constructor's own "require" binding, so no
hook-created binding is ever registered. -/
theorem createInterpreterWithInit_ignores_hook :
    (createInterpreterWithInit "var msg = \"Hello\"; alert(msg); true;"
      (fun g => "alert" :: g)).globalBindings = ["require"] ∧
    ((createInterpreterWithInit "var msg = \"Hello\"; alert(msg); true;"
      (fun g => "alert" :: g)).globalBindings.contains "alert") = false :=
  ⟨rfl, rfl⟩

/-- Claim C10: every construction path — with or without a caller hook, for
any source text — registers exactly the native "require" binding into the
global scope before execution, and calling the installed module function
returns an object exposing the deepEqual function (which compares
structurally, as the sample evaluation shows). -/
theorem require_binding_unconditional :
    (∀ code : String, (createInterpreter code).globalBindings = ["require"]) ∧
    (∀ (code : String) (initFunc : List String → List String),
      (createInterpreterWithInit code initFunc).globalBindings = ["require"]) ∧
    (∀ m : String, (requireModule m).deepEqual = deepEqual) ∧
    (requireModule "assert").deepEqual (.arr [.num 1, .num 2])
      (.arr [.num 1, .num 2]) "" = .ok true :=
  ⟨fun _ => rfl, fun _ _ => rfl, fun _ => rfl, rfl⟩
